import Mathlib

/-!
Verification of the model-checkpointing mechanism of the
`deep-learning-v2-pytorch` notebooks (Saving-and-Loading notebook and the
Part 5 inference/validation notebook), shallowly embedded in Lean 4.

The embedding covers: the Parameter Store (ordered key/tensor mapping),
the Architecture Descriptor, the Model Factory `fc_model.Network`, the
checkpoint save cell (which hardcodes `input_size = 784`,
`output_size = 10` and introspects `hidden_layers`), `load_checkpoint`,
the strict `load_state_dict` algorithm, and the `DropoutClassifier`
of the Part 5 notebook whose `F.dropout` calls ignore the module's
training flag.

Numeric parameter values are modelled as integers (element-wise identity
is all the checkpoint contract needs); the Part 5 forward pass is
modelled over the reals.
-/

deriving instance DecidableEq for Except

namespace Ckpt

/-- Parameter keys of the state dict of `fc_model.Network`.  In the source
these are the strings `"hidden_layers.<i>.weight"`, `"hidden_layers.<i>.bias"`,
`"output.weight"`, `"output.bias"`; they are rendered here as a structured
type carrying the same index information. -/
inductive PKey where
  | hiddenWeight (i : Nat)
  | hiddenBias (i : Nat)
  | outputWeight
  | outputBias
deriving DecidableEq, Repr

/-- A numeric array: a shape (tuple of dimension sizes) together with its
flattened contents. -/
structure Tensor where
  shape : List Nat
  data : List Int
deriving DecidableEq, Repr

/-- Number of elements of an array of the given shape. -/
def numel (shape : List Nat) : Nat := shape.foldr (· * ·) 1

/-- Build a tensor of the given shape whose flattened entries are produced
by the initializer `f` (models the framework's random initialization:
the values are arbitrary, the shape is what matters). -/
def mkTensor (shape : List Nat) (f : Nat → Int) : Tensor :=
  ⟨shape, (List.range (numel shape)).map f⟩

/-- The Parameter Store: an ordered mapping from layer-identifier keys to
tensors, insertion order matching layer construction order. -/
abbrev ParamStore := List (PKey × Tensor)

/-- An initialization policy: for each parameter key, a stream of values.
Different `Init` values model different random seeds. -/
abbrev Init := PKey → Nat → Int

/-- First value bound to a key in a parameter store (stores built by the
factory have unique keys). -/
def findVal (k : PKey) : ParamStore → Option Tensor
  | [] => none
  | (k', t) :: ps => if k' = k then some t else findVal k ps

/-- Keys of a parameter store, in order. -/
def storeKeys (ps : ParamStore) : List PKey := ps.map Prod.fst

/-- Shape signature of a parameter store: its keys with their shapes, in
order (the part of the store that is a pure function of the architecture). -/
def sig (ps : ParamStore) : List (PKey × List Nat) :=
  ps.map fun p => (p.1, p.2.shape)

/-- A single incompatibility discovered during strict loading: a key of one
side missing on the other, or a shape mismatch (checkpoint shape first,
current-model shape second, matching the framework's error message). -/
inductive LoadIssue where
  | missingKey (k : PKey)
  | unexpectedKey (k : PKey)
  | sizeMismatch (k : PKey) (fromCheckpoint : List Nat) (inModel : List Nat)
deriving DecidableEq, Repr

/-- Modelled from the spec: the strict-loading check of the framework's
`Module.load_state_dict` (absent from src/, only its traceback appears in
the notebook).  Every key of the target store must occur in the incoming
store with the same shape, and every incoming key must be consumed; all
violations are collected into one report rather than failing fast. -/
def strictLoadErrors (target incoming : ParamStore) : List LoadIssue :=
  (target.filterMap fun p =>
    match findVal p.1 incoming with
    | none => some (.missingKey p.1)
    | some t' =>
        if t'.shape = p.2.shape then none
        else some (.sizeMismatch p.1 t'.shape p.2.shape)) ++
  (incoming.filterMap fun p =>
    if (findVal p.1 target).isSome then none else some (.unexpectedKey p.1))

/-- Overwrite every entry of the target store with the incoming value bound
to the same key (the element-for-element copy performed on a successful
strict load). -/
def overwrite (target incoming : ParamStore) : ParamStore :=
  target.map fun p => (p.1, (findVal p.1 incoming).getD p.2)

/-- Modelled from the spec: `Module.load_state_dict` with `strict=True`
(framework code absent from src/).  On success it returns the fully
overwritten store; on failure it reports every incompatibility at once
and produces no modified store (section 4.3: the target is left
unmodified, no partial overwrite). -/
def load_state_dict (target incoming : ParamStore) :
    Except (List LoadIssue) ParamStore :=
  match strictLoadErrors target incoming with
  | [] => .ok (overwrite target incoming)
  | es => .error es

/-- Width metadata of a fully-connected layer (`nn.Linear(in_features,
out_features)`). -/
structure Linear where
  in_features : Nat
  out_features : Nat
deriving DecidableEq, Repr

/-- The Architecture Descriptor of section 3 of the spec: input width,
output width and the ordered hidden widths. -/
structure Descriptor where
  input_size : Nat
  output_size : Nat
  hidden_sizes : List Nat
deriving DecidableEq, Repr

/-- Validity per the data-model invariants of section 3: every width
positive. -/
def descriptorValid (d : Descriptor) : Bool :=
  0 < d.input_size && 0 < d.output_size && d.hidden_sizes.all (0 < ·)

/-- A model: the hidden-layer width metadata, the output layer, the
training/evaluation mode flag, and the Parameter Store owned by the
model. -/
structure Model where
  hidden_layers : List Linear
  output : Linear
  training : Bool
  params : ParamStore
deriving DecidableEq, Repr

/-- The state dict of a model is its Parameter Store. -/
def Model.state_dict (m : Model) : ParamStore := m.params

/-- Hidden-layer metadata built from the descriptor widths, as in
`fc_model.Network.__init__`: `Linear(input_size, hidden[0])` followed by
`Linear(h1, h2)` for consecutive hidden pairs. -/
def mkLayers (input_size : Nat) (hidden : List Nat) : List Linear :=
  ((input_size :: hidden).zip hidden).map fun p => ⟨p.1, p.2⟩

/-- The parameter entries of the hidden layers, keyed
`hidden_layers.<i>.weight` / `hidden_layers.<i>.bias` from index `i`
upward; a `Linear(a, b)` owns a weight of shape `[b, a]` and a bias of
shape `[b]`. -/
def hiddenPS (init : Init) : Nat → List Linear → ParamStore
  | _, [] => []
  | i, l :: ls =>
      (.hiddenWeight i, mkTensor [l.out_features, l.in_features] (init (.hiddenWeight i))) ::
      (.hiddenBias i, mkTensor [l.out_features] (init (.hiddenBias i))) ::
      hiddenPS init (i + 1) ls

/-- The full Parameter Store created when the layers are constructed:
hidden-layer entries in order, then `output.weight` and `output.bias`. -/
def paramStoreOf (init : Init) (layers : List Linear) (out : Linear) : ParamStore :=
  hiddenPS init 0 layers ++
    [(.outputWeight, mkTensor [out.out_features, out.in_features] (init .outputWeight)),
     (.outputBias, mkTensor [out.out_features] (init .outputBias))]

namespace fc_model

/-- Modelled from the spec: `fc_model.Network` is imported by the notebook
but its module is not under src/.  Per sections 4.1, 4.2 and 9 of the
spec it builds one hidden `Linear` per hidden width (chained from
`input_size`), an output `Linear` from the last width to `output_size`,
and freshly initialized parameters; per section 9 the source performs no
positivity validation of the widths.  The training flag starts `true`
(the framework default). -/
def Network (input_size output_size : Nat) (hidden : List Nat) (init : Init) : Model :=
  let layers := mkLayers input_size hidden
  let out : Linear := ⟨hidden.getLastD input_size, output_size⟩
  { hidden_layers := layers
    output := out
    training := true
    params := paramStoreOf init layers out }

end fc_model

/-- A model built from a descriptor. -/
def build (d : Descriptor) (init : Init) : Model :=
  fc_model.Network d.input_size d.output_size d.hidden_sizes init

/-- The Model Factory with the error channel that section 7 of the spec
postulates.  Modelled from the spec: section 9 records that the source
performs no descriptor validation before use, so construction always
succeeds and the `MalformedDescriptor` branch is never taken. -/
inductive BuildError where
  | malformedDescriptor
deriving DecidableEq, Repr

/-- Modelled from the spec: the factory as actually implemented (section 9:
no positivity validation), exposed through the error channel of
section 7. -/
def factoryBuild (d : Descriptor) (init : Init) : Except BuildError Model :=
  .ok (build d init)

/-- The Checkpoint Record: the architecture fields together with the
parameter snapshot, exactly the keys of the dictionary built by the
notebook's save cell.  The training flag is not part of the record. -/
structure CheckpointRecord where
  input_size : Nat
  output_size : Nat
  hidden_layers : List Nat
  state_dict : ParamStore
deriving DecidableEq, Repr

/-- The notebook's save cell: `input_size` and `output_size` are the
hardcoded constants 784 and 10, `hidden_layers` is introspected from the
live model (`each.out_features for each in model.hidden_layers`), and
`state_dict` is the model's current Parameter Store (serialized to disk
at save time by `torch.save`). -/
def checkpoint (m : Model) : CheckpointRecord :=
  { input_size := 784
    output_size := 10
    hidden_layers := m.hidden_layers.map (·.out_features)
    state_dict := m.state_dict }

/-- Errors surfaced by `load` (section 7 of the spec). -/
inductive LoadError where
  | artifactUnreadable
  | shapeMismatch (issues : List LoadIssue)
deriving DecidableEq, Repr

/-- The notebook's `load_checkpoint` applied to an already-deserialized
record: rebuild the model from the recovered architecture fields with
`fc_model.Network`, then strict-load the recovered state dict into it. -/
def load_checkpoint (cp : CheckpointRecord) (init : Init) : Except LoadError Model :=
  let m := fc_model.Network cp.input_size cp.output_size cp.hidden_layers init
  match load_state_dict m.state_dict cp.state_dict with
  | .ok ps => .ok { m with params := ps }
  | .error es => .error (.shapeMismatch es)

/-- Save a model with the notebook's save cell, then load the resulting
checkpoint with `load_checkpoint` (the round trip of section 8). -/
def saveThenLoad (m : Model) (init : Init) : Except LoadError Model :=
  load_checkpoint (checkpoint m) init

/-- Applying a (possibly failing) strict load to a model: on success the
model now holds the overwritten store, on failure the model is returned
as it was. -/
def applyLoad (m : Model) (incoming : ParamStore) : Model :=
  match load_state_dict m.state_dict incoming with
  | .ok ps => { m with params := ps }
  | .error _ => m

/-- Set the training/evaluation mode flag (`model.train()` /
`model.eval()`). -/
def setMode (b : Bool) (m : Model) : Model := { m with training := b }

/-- The three phases of `load_checkpoint`, in source order:
`torch.load(filepath)`, then `fc_model.Network(...)`, then
`model.load_state_dict(...)`. -/
inductive Step where
  | torchLoad
  | buildModel
  | loadStateDict
deriving DecidableEq, Repr

/-- The notebook's `load_checkpoint` on the result of parsing the
persisted blob (`none` models a blob that cannot be parsed as a
Checkpoint Record), instrumented with the phases it executes in order.
Modelled from the spec for the parse failure itself (`torch.load` is
framework code): an unparseable blob surfaces `ArtifactUnreadable` from
the very first statement of `load_checkpoint`. -/
def load_checkpoint_traced (parsed : Option CheckpointRecord) (init : Init) :
    List Step × Except LoadError Model :=
  match parsed with
  | none => ([.torchLoad], .error .artifactUnreadable)
  | some cp => ([.torchLoad, .buildModel, .loadStateDict], load_checkpoint cp init)

/-- An initialization policy used for concrete instances. -/
def zeroInit : Init := fun _ _ => 0

/-- The input width a model actually consumes: the `in_features` of its
first hidden layer (of the output layer when there are no hidden
layers). -/
def modelInputWidth (m : Model) : Nat :=
  match m.hidden_layers with
  | [] => m.output.in_features
  | l :: _ => l.in_features

/-- The output width a model actually produces. -/
def modelOutputWidth (m : Model) : Nat := m.output.out_features

/-- The hidden widths a model actually has. -/
def modelHiddenWidths (m : Model) : List Nat :=
  m.hidden_layers.map (·.out_features)

/-- The architecture fields the save cell records for a model, read back
as a descriptor. -/
def recordedArch (m : Model) : Descriptor :=
  { input_size := (checkpoint m).input_size
    output_size := (checkpoint m).output_size
    hidden_sizes := (checkpoint m).hidden_layers }

/-- The recorded architecture agrees with the model's actual layer
widths. -/
def archMatchesModel (m : Model) : Prop :=
  recordedArch m =
    { input_size := modelInputWidth m
      output_size := modelOutputWidth m
      hidden_sizes := modelHiddenWidths m }

instance (m : Model) : Decidable (archMatchesModel m) := by
  unfold archMatchesModel; infer_instance

/-! ### Live state, aliasing and the persisted artifact

For the snapshot-independence claim the Parameter Store is modelled at
the memory level: tensors live in a heap, the live model's state dict
holds heap addresses (the framework's `state_dict()` aliases the live
tensors), training mutates the heap in place through those addresses,
and `torch.save` dereferences the addresses at save time, so the
persisted record holds tensor values, not addresses. -/

/-- A live model whose parameters are references into the heap. -/
structure RefModel where
  hidden_layers : List Linear
  output : Linear
  paramAddrs : List (PKey × Nat)
deriving DecidableEq, Repr

/-- Read the live parameter values: dereference every address. -/
def derefParams (heap : List Tensor) (m : RefModel) : ParamStore :=
  m.paramAddrs.map fun p => (p.1, heap.getD p.2 ⟨[], []⟩)

/-- Modelled from the spec: `torch.save` applied to the save cell's
dictionary serializes the tensor values reachable at save time into the
persisted blob (a deep copy with no aliasing back to the heap). -/
def torchSaveRecord (heap : List Tensor) (m : RefModel) : CheckpointRecord :=
  { input_size := 784
    output_size := 10
    hidden_layers := m.hidden_layers.map (·.out_features)
    state_dict := derefParams heap m }

/-- The whole mutable world: the tensor heap, the live model, and the
durable artifact at the destination path. -/
structure World where
  heap : List Tensor
  model : RefModel
  disk : Option CheckpointRecord
deriving DecidableEq, Repr

/-- The save operation: write the serialized record to the destination. -/
def saveOp (w : World) : World :=
  { w with disk := some (torchSaveRecord w.heap w.model) }

/-- Add `d` to every element of a tensor (one in-place gradient-style
update). -/
def addToTensor (d : Int) (t : Tensor) : Tensor :=
  ⟨t.shape, t.data.map (· + d)⟩

/-- A training step: mutate, in place, every heap cell the live model's
parameters point to.  Nothing but the heap is touched. -/
def trainOp (d : Int) (w : World) : World :=
  { w with
    heap := w.heap.mapIdx fun a t =>
      if (w.model.paramAddrs.map Prod.snd).contains a then addToTensor d t else t }

end Ckpt

namespace Part5

/-- A fully-connected layer with real-valued weights (rows) and biases. -/
structure DLinear where
  weight : List (List ℝ)
  bias : List ℝ

/-- Dot product of a weight row with the input vector. -/
noncomputable def dot (r x : List ℝ) : ℝ := ((r.zip x).map fun p => p.1 * p.2).sum

/-- Apply a linear layer: one output per (row, bias) pair. -/
noncomputable def linearApply (l : DLinear) (x : List ℝ) : List ℝ :=
  (l.weight.zip l.bias).map fun p => dot p.1 x + p.2

/-- Rectified linear unit. -/
noncomputable def relu (a : ℝ) : ℝ := max a 0

/-- The framework's functional dropout `F.dropout(x, p, training)`: when
`training` is true, zero the dropped units and scale the kept ones by
`1 / (1 - p)`; when false, the identity.  The random mask is made
explicit as an argument (`true` = kept).  The defaults of the framework
are `p = 0.5` and `training = true`. -/
noncomputable def dropoutF (training : Bool) (p : ℝ) (mask : List Bool) (x : List ℝ) : List ℝ :=
  if training then (x.zip mask).map fun c => if c.2 then c.1 / (1 - p) else 0
  else x

/-- Log-softmax along the vector. -/
noncomputable def logSoftmax (x : List ℝ) : List ℝ :=
  x.map fun a => a - Real.log ((x.map Real.exp).sum)

/-- The Part 5 notebook's model with dropout: four linear layers and the
module-level training flag every `nn.Module` carries. -/
structure DropoutClassifier where
  fc1 : DLinear
  fc2 : DLinear
  fc3 : DLinear
  fc4 : DLinear
  training : Bool

/-- `model.eval()`: set the module's flag to evaluation mode. -/
def evalMode (c : DropoutClassifier) : DropoutClassifier := { c with training := false }

/-- `model.train()`: set the module's flag to training mode. -/
def trainMode (c : DropoutClassifier) : DropoutClassifier := { c with training := true }

/-- The notebook's `DropoutClassifier.forward`: three hidden layers each
followed by `F.dropout(F.relu(...))` with all defaults — in particular
`training = true`, without reference to the module's `training` flag —
then `log_softmax`.  The three dropout masks are the stochastic state of
one forward call. -/
noncomputable def DropoutClassifier.forward (c : DropoutClassifier)
    (m1 m2 m3 : List Bool) (x : List ℝ) : List ℝ :=
  let x1 := dropoutF true (1 / 2) m1 ((linearApply c.fc1 x).map relu)
  let x2 := dropoutF true (1 / 2) m2 ((linearApply c.fc2 x1).map relu)
  let x3 := dropoutF true (1 / 2) m3 ((linearApply c.fc3 x2).map relu)
  logSoftmax (linearApply c.fc4 x3)

/-- A one-unit linear layer with weight `w` and bias 0, for concrete
instances. -/
def unit1 (w : ℝ) : DLinear := ⟨[[w]], [0]⟩

/-- A concrete trained classifier instance with one unit per hidden layer
and two outputs. -/
noncomputable def smallClassifier : DropoutClassifier :=
  { fc1 := unit1 1, fc2 := unit1 1, fc3 := unit1 1
    fc4 := ⟨[[1], [0]], [0, 0]⟩
    training := true }

end Part5

namespace Ckpt

/-! ### Helper lemmas -/

theorem map_out_mkLayers (inp : Nat) (hs : List Nat) :
    (mkLayers inp hs).map (·.out_features) = hs := by
  unfold mkLayers
  rw [List.map_map]
  have h : ((inp :: hs).zip hs).map (Prod.snd) = hs :=
    List.map_snd_zip _ _ (by simp)
  simpa using h

theorem sig_hiddenPS_indep (a b : Init) (ls : List Linear) :
    ∀ i, sig (hiddenPS a i ls) = sig (hiddenPS b i ls) := by
  induction ls with
  | nil => intro i; rfl
  | cons l ls ih =>
      intro i
      simp only [hiddenPS, sig, List.map_cons, mkTensor]
      exact congrArg _ (congrArg _ (ih (i + 1)))

theorem sig_append (ps1 ps2 : ParamStore) :
    sig (ps1 ++ ps2) = sig ps1 ++ sig ps2 := by
  simp [sig]

theorem sig_paramStoreOf_indep (a b : Init) (layers : List Linear) (out : Linear) :
    sig (paramStoreOf a layers out) = sig (paramStoreOf b layers out) := by
  unfold paramStoreOf
  rw [sig_append, sig_append, sig_hiddenPS_indep a b layers 0]
  rfl

theorem mem_storeKeys_hiddenPS (init : Init) (ls : List Linear) :
    ∀ i k, k ∈ storeKeys (hiddenPS init i ls) →
      ∃ j, i ≤ j ∧ (k = .hiddenWeight j ∨ k = .hiddenBias j) := by
  induction ls with
  | nil => intro i k h; simp [hiddenPS, storeKeys] at h
  | cons l ls ih =>
      intro i k h
      simp only [hiddenPS, storeKeys, List.map_cons, List.mem_cons] at h
      rcases h with h | h | h
      · exact ⟨i, le_refl i, Or.inl h⟩
      · exact ⟨i, le_refl i, Or.inr h⟩
      · obtain ⟨j, hj, hk⟩ := ih (i + 1) k h
        exact ⟨j, Nat.le_of_succ_le hj, hk⟩

theorem nodup_storeKeys_hiddenPS (init : Init) (ls : List Linear) :
    ∀ i, (storeKeys (hiddenPS init i ls)).Nodup := by
  induction ls with
  | nil => intro i; simp [hiddenPS, storeKeys]
  | cons l ls ih =>
      intro i
      simp only [hiddenPS, storeKeys, List.map_cons, List.nodup_cons, List.mem_cons]
      refine ⟨?_, ?_, ih (i + 1)⟩
      · rintro (h | h)
        · exact PKey.noConfusion h
        · obtain ⟨j, hj, hk | hk⟩ := mem_storeKeys_hiddenPS init ls (i + 1) _ h
          · exact absurd (PKey.hiddenWeight.inj hk) (by omega)
          · exact PKey.noConfusion hk
      · intro h
        obtain ⟨j, hj, hk | hk⟩ := mem_storeKeys_hiddenPS init ls (i + 1) _ h
        · exact PKey.noConfusion hk
        · exact absurd (PKey.hiddenBias.inj hk) (by omega)

theorem nodup_storeKeys_paramStoreOf (init : Init) (layers : List Linear) (out : Linear) :
    (storeKeys (paramStoreOf init layers out)).Nodup := by
  unfold paramStoreOf storeKeys
  rw [List.map_append, List.nodup_append]
  refine ⟨nodup_storeKeys_hiddenPS init layers 0, by simp, ?_⟩
  intro k hk
  obtain ⟨j, _, hk' | hk'⟩ := mem_storeKeys_hiddenPS init layers 0 k hk <;>
    subst hk' <;> simp

theorem findVal_sig {ps1 ps2 : ParamStore} (h : sig ps1 = sig ps2) (k : PKey) :
    (findVal k ps1).map Tensor.shape = (findVal k ps2).map Tensor.shape := by
  induction ps1 generalizing ps2 with
  | nil =>
      cases ps2 with
      | nil => rfl
      | cons q qs => simp [sig] at h
  | cons p ps ih =>
      cases ps2 with
      | nil => simp [sig] at h
      | cons q qs =>
          simp only [sig, List.map_cons, List.cons.injEq, Prod.mk.injEq] at h
          obtain ⟨⟨hk, hs⟩, htl⟩ := h
          by_cases hq : p.1 = k
          · simp [findVal, hq, hk ▸ hq, hs]
          · simp [findVal, hq, hk ▸ hq, ih htl]

theorem findVal_isSome_of_mem {ps : ParamStore} {p : PKey × Tensor} (h : p ∈ ps) :
    (findVal p.1 ps).isSome := by
  induction ps with
  | nil => cases h
  | cons q qs ih =>
      rcases List.mem_cons.mp h with h | h
      · subst h; simp [findVal]
      · by_cases hq : q.1 = p.1
        · simp [findVal, hq]
        · simpa [findVal, hq] using ih h

theorem findVal_of_nodup {ps : ParamStore} (hn : (storeKeys ps).Nodup)
    {k : PKey} {t : Tensor} (h : (k, t) ∈ ps) : findVal k ps = some t := by
  induction ps with
  | nil => cases h
  | cons q qs ih =>
      simp only [storeKeys, List.map_cons, List.nodup_cons] at hn
      rcases List.mem_cons.mp h with h | h
      · rw [← h]; simp [findVal]
      · have hne : q.1 ≠ k := by
          intro he
          exact hn.1 (he ▸ (List.mem_map.mpr ⟨(k, t), h, rfl⟩))
        simp [findVal, hne, ih hn.2 h]

theorem strictLoadErrors_nil {ps1 ps2 : ParamStore}
    (h : sig ps1 = sig ps2) (hn : (storeKeys ps1).Nodup) :
    strictLoadErrors ps1 ps2 = [] := by
  unfold strictLoadErrors
  rw [List.append_eq_nil]
  constructor
  · rw [List.filterMap_eq_nil_iff]
    intro p hp
    have h1 : findVal p.1 ps1 = some p.2 := findVal_of_nodup hn hp
    have h2 := findVal_sig h p.1
    rw [h1] at h2
    cases hfv : findVal p.1 ps2 with
    | none => rw [hfv] at h2; simp at h2
    | some t' =>
        rw [hfv] at h2
        simp only [Option.map_some'] at h2
        simp [hfv, Option.some.inj h2]
  · rw [List.filterMap_eq_nil_iff]
    intro p hp
    have h2 := findVal_sig h p.1
    have h3 : (findVal p.1 ps2).isSome := findVal_isSome_of_mem hp
    cases hfv : findVal p.1 ps1 with
    | none =>
        rw [hfv] at h2
        cases hfv2 : findVal p.1 ps2 with
        | none => rw [hfv2] at h3; simp at h3
        | some t' => rw [hfv2] at h2; simp at h2
    | some t => simp [hfv]

theorem overwrite_eq {ps1 ps2 : ParamStore}
    (h : sig ps1 = sig ps2) (hn : (storeKeys ps1).Nodup) :
    overwrite ps1 ps2 = ps2 := by
  induction ps1 generalizing ps2 with
  | nil =>
      cases ps2 with
      | nil => rfl
      | cons q qs => simp [sig] at h
  | cons p ps ih =>
      cases ps2 with
      | nil => simp [sig] at h
      | cons q qs =>
          simp only [sig, List.map_cons, List.cons.injEq, Prod.mk.injEq] at h
          obtain ⟨⟨hk, _⟩, htl⟩ := h
          simp only [storeKeys, List.map_cons, List.nodup_cons] at hn
          unfold overwrite
          simp only [List.map_cons]
          have hhead : findVal p.1 (q :: qs) = some q.2 := by
            have : q.1 = p.1 := hk.symm
            simp [findVal, this]
          rw [hhead]
          have htail : ∀ r ∈ ps, (fun p' => (p'.1, (findVal p'.1 (q :: qs)).getD p'.2)) r =
              (fun p' => (p'.1, (findVal p'.1 qs).getD p'.2)) r := by
            intro r hr
            have hne : q.1 ≠ r.1 := by
              intro he
              exact hn.1 (hk ▸ he ▸ (List.mem_map.mpr ⟨r, hr, rfl⟩))
            simp [findVal, hne]
          rw [List.map_congr_left htail]
          have : ps.map (fun p' => (p'.1, (findVal p'.1 qs).getD p'.2)) = overwrite ps qs := rfl
          rw [this, ih htl hn.2]
          simp [Option.getD, hk]

theorem checkpoint_setMode (b : Bool) (m : Model) :
    checkpoint (setMode b m) = checkpoint m := rfl

theorem roundTrip_aux (hs : List Nat) (i1 i2 : Init) (tr : Bool) :
    ∃ m', saveThenLoad (setMode tr (fc_model.Network 784 10 hs i1)) i2 = .ok m' ∧
      m'.params = (fc_model.Network 784 10 hs i1).params := by
  refine ⟨{ fc_model.Network 784 10 hs i2 with
            params := (fc_model.Network 784 10 hs i1).params }, ?_, rfl⟩
  have hsig : sig (fc_model.Network 784 10 hs i2).params =
      sig (fc_model.Network 784 10 hs i1).params :=
    sig_paramStoreOf_indep i2 i1 _ _
  have hnd : (storeKeys (fc_model.Network 784 10 hs i2).params).Nodup :=
    nodup_storeKeys_paramStoreOf i2 _ _
  have hcp : checkpoint (setMode tr (fc_model.Network 784 10 hs i1)) =
      ⟨784, 10, hs, (fc_model.Network 784 10 hs i1).params⟩ := by
    simp only [checkpoint, setMode, Model.state_dict]
    congr 1
    exact map_out_mkLayers 784 hs
  show load_checkpoint (checkpoint (setMode tr (fc_model.Network 784 10 hs i1))) i2 = _
  rw [hcp]
  simp only [load_checkpoint, Model.state_dict]
  unfold load_state_dict
  rw [strictLoadErrors_nil hsig hnd, overwrite_eq hsig hnd]

/-! ### Claim theorems -/

/-- Claim C1 (counterexample): the round-trip identity does not hold for
every valid Architecture Descriptor.  For the valid descriptor
`{input_size := 100, output_size := 10, hidden_sizes := [5]}` the save
cell records `input_size = 784` regardless of the model, so loading the
saved checkpoint rebuilds a 784-wide model and the strict load fails —
no model with an equal Parameter Store is produced. -/
theorem roundtrip_fails_for_non_784_input :
    descriptorValid ⟨100, 10, [5]⟩ = true ∧
    (saveThenLoad (build ⟨100, 10, [5]⟩ zeroInit) zeroInit).isOk = false := by
  decide

/-- Claim C1 (amended): for every descriptor whose input and output widths
are the constants the save cell hardcodes (784 and 10) and any hidden
widths, saving a model built from it and loading the checkpoint back
yields a model whose Parameter Store is element-wise equal to the saved
model's at the time of save. -/
theorem roundtrip_holds_for_784_10 (hs : List Nat) (i1 i2 : Init) :
    ∃ m', saveThenLoad (fc_model.Network 784 10 hs i1) i2 = .ok m' ∧
      m'.params = (fc_model.Network 784 10 hs i1).params :=
  roundTrip_aux hs i1 i2 true

/-- Claim C2: strict loading collects every incompatibility into a single
error report instead of stopping at the first one.  Loading the
checkpoint of a `[512, 256, 128]` model into a `[400, 200, 100]` model
reports exactly the 7 mismatched keys of the notebook's traceback (the
three hidden weight/bias pairs and the output weight, with their shapes);
and missing and unexpected keys are likewise all collected. -/
theorem mismatch_report_complete :
    (load_state_dict (fc_model.Network 784 10 [400, 200, 100] zeroInit).state_dict
        (checkpoint (fc_model.Network 784 10 [512, 256, 128] zeroInit)).state_dict =
      .error
        [.sizeMismatch (.hiddenWeight 0) [512, 784] [400, 784],
         .sizeMismatch (.hiddenBias 0) [512] [400],
         .sizeMismatch (.hiddenWeight 1) [256, 512] [200, 400],
         .sizeMismatch (.hiddenBias 1) [256] [200],
         .sizeMismatch (.hiddenWeight 2) [128, 256] [100, 200],
         .sizeMismatch (.hiddenBias 2) [128] [100],
         .sizeMismatch .outputWeight [10, 128] [10, 100]]) ∧
    (strictLoadErrors (fc_model.Network 4 3 [2] zeroInit).state_dict
        (fc_model.Network 4 3 [] zeroInit).state_dict =
      [.missingKey (.hiddenWeight 0), .missingKey (.hiddenBias 0),
       .sizeMismatch .outputWeight [3, 4] [3, 2]]) ∧
    (strictLoadErrors (fc_model.Network 4 3 [] zeroInit).state_dict
        (fc_model.Network 4 3 [2] zeroInit).state_dict =
      [.sizeMismatch .outputWeight [3, 2] [3, 4],
       .unexpectedKey (.hiddenWeight 0), .unexpectedKey (.hiddenBias 0)]) := by
  refine ⟨by decide, by decide, by decide⟩

/-- Claim C3: a strict load that fails with a shape-mismatch report leaves
the target model exactly as it was — no parameter is partially
overwritten. -/
theorem failed_load_leaves_model_unchanged (m : Model) (incoming : ParamStore)
    (es : List LoadIssue) (h : load_state_dict m.state_dict incoming = .error es) :
    applyLoad m incoming = m := by
  unfold applyLoad
  rw [h]

/-- Witness for claim C3 at a concrete incompatible pair: a `[1]`-hidden
model with input width 3 and a checkpoint saved from input width 2. -/
theorem failed_load_leaves_model_unchanged_witness :
    applyLoad (build ⟨3, 1, [1]⟩ zeroInit)
        (checkpoint (build ⟨2, 1, [1]⟩ zeroInit)).state_dict =
      build ⟨3, 1, [1]⟩ zeroInit :=
  failed_load_leaves_model_unchanged (build ⟨3, 1, [1]⟩ zeroInit)
    (checkpoint (build ⟨2, 1, [1]⟩ zeroInit)).state_dict
    [.sizeMismatch (.hiddenWeight 0) [1, 2] [1, 3]] (by decide)

/-- Claim C4: the key set and per-key shapes of the Parameter Store of a
model built from a descriptor are a pure function of the descriptor
alone — two models built from the same descriptor under different random
initializations have identical shape signatures, key for key and in
order. -/
theorem shapes_pure_function_of_descriptor (d : Descriptor) (i1 i2 : Init) :
    sig (build d i1).state_dict = sig (build d i2).state_dict :=
  sig_paramStoreOf_indep i1 i2 _ _

/-- Claim C5: the persisted Checkpoint Record is a deep copy taken at save
time.  After a save followed by any in-place training update of the live
parameter heap, the record on disk still holds exactly the parameter
values read from the heap at save time (and is unchanged by the
training step): the record owns its values, with no aliasing back to the
live tensors. -/
theorem checkpoint_snapshot_independent (w : World) (d : Int) :
    (trainOp d (saveOp w)).disk = some (torchSaveRecord w.heap w.model) ∧
    (trainOp d (saveOp w)).disk = (saveOp w).disk :=
  ⟨rfl, rfl⟩

/-- Claim C6 (counterexample): the Model Factory does not raise
`MalformedDescriptor` on a descriptor violating the positivity
invariant — building from `{input_size := 0, output_size := 10,
hidden_sizes := [5]}` succeeds. -/
theorem malformed_descriptor_not_raised :
    descriptorValid ⟨0, 10, [5]⟩ = false ∧
    factoryBuild ⟨0, 10, [5]⟩ zeroInit ≠ .error .malformedDescriptor := by
  decide

/-- Claim C6 (amended): the Model Factory performs no positivity
validation (spec section 9: the source does not validate descriptor
positivity before use), so for every descriptor violating the section 3
invariants construction still succeeds, with parameter shapes derived
from the descriptor as given. -/
theorem factory_accepts_invalid_descriptor (d : Descriptor) (init : Init)
    (_h : descriptorValid d = false) :
    factoryBuild d init = .ok (build d init) := rfl

/-- Witness for claim C6 (amended) at the concrete invalid descriptor
`{0, 10, [5]}`. -/
theorem factory_accepts_invalid_descriptor_witness :
    descriptorValid ⟨0, 10, [5]⟩ = false ∧
    factoryBuild ⟨0, 10, [5]⟩ zeroInit = .ok (build ⟨0, 10, [5]⟩ zeroInit) :=
  ⟨by decide, factory_accepts_invalid_descriptor ⟨0, 10, [5]⟩ zeroInit (by decide)⟩

/-- Claim C7: when the persisted blob cannot be parsed as a Checkpoint
Record, `load_checkpoint` surfaces `ArtifactUnreadable` from its first
phase (`torch.load`), before the Model Factory phase is ever reached. -/
theorem artifact_unreadable_before_build (init : Init) :
    load_checkpoint_traced none init = ([.torchLoad], .error .artifactUnreadable) ∧
    Step.buildModel ∉ (load_checkpoint_traced none init).1 := by
  exact ⟨rfl, by simp [load_checkpoint_traced]⟩

/-- Claim C8: the training/evaluation mode flag is not part of the
Checkpoint Record — the record saved for a model is identical whichever
way the flag is set — and Scenario A's round-trip Parameter Store
equality holds with the flag toggled either way at save time. -/
theorem mode_flag_not_in_checkpoint :
    (∀ (m : Model) (b : Bool), checkpoint (setMode b m) = checkpoint m) ∧
    ∀ (b : Bool) (i1 i2 : Init),
      ∃ m', saveThenLoad (setMode b (fc_model.Network 784 10 [512, 256, 128] i1)) i2 =
          .ok m' ∧
        m'.params = (fc_model.Network 784 10 [512, 256, 128] i1).params :=
  ⟨fun _ _ => rfl, fun b i1 i2 => roundTrip_aux [512, 256, 128] i1 i2 b⟩

/-- Claim C9: the save cell records `hidden_layers` by introspecting the
live model but records `input_size` and `output_size` as the constants
784 and 10, so for a model built from any descriptor, the recorded
architecture agrees with the model's actual layer widths exactly when
the descriptor's input width is 784 and its output width is 10. -/
theorem save_cell_hardcodes_input_output (d : Descriptor) (init : Init) :
    recordedArch (build d init) = ⟨784, 10, d.hidden_sizes⟩ ∧
    (archMatchesModel (build d init) ↔
      d.input_size = 784 ∧ d.output_size = 10) := by
  obtain ⟨inp, outp, hs⟩ := d
  have hhid : modelHiddenWidths (build ⟨inp, outp, hs⟩ init) = hs := by
    simpa [modelHiddenWidths, build, fc_model.Network] using map_out_mkLayers inp hs
  have hrec : recordedArch (build ⟨inp, outp, hs⟩ init) = ⟨784, 10, hs⟩ := by
    simp [recordedArch, checkpoint, Model.state_dict]
    exact hhid
  have hin : modelInputWidth (build ⟨inp, outp, hs⟩ init) = inp := by
    cases hs with
    | nil => simp [modelInputWidth, build, fc_model.Network, mkLayers]
    | cons h t => simp [modelInputWidth, build, fc_model.Network, mkLayers]
  have hout : modelOutputWidth (build ⟨inp, outp, hs⟩ init) = outp := rfl
  refine ⟨hrec, ?_⟩
  rw [archMatchesModel, hrec, hin, hout, hhid]
  simp [Descriptor.mk.injEq, eq_comm]

end Ckpt


namespace Part5

/-- Claim C10: `DropoutClassifier.forward` calls `F.dropout` with the
framework default `training = true` and never consults the module's
training flag, so the dropout transformation is applied identically in
training and evaluation mode; consequently, even after `model.eval()`
the forward pass is not a deterministic function of the parameters and
the input — two draws of the dropout masks give different outputs. -/
theorem dropout_ignores_mode_flag :
    (∀ (c : DropoutClassifier) (b : Bool) (m1 m2 m3 : List Bool) (x : List ℝ),
      DropoutClassifier.forward { c with training := b } m1 m2 m3 x =
        c.forward m1 m2 m3 x) ∧
    ∃ (x : List ℝ) (m1 m2 m3 m1' m2' m3' : List Bool),
      (evalMode smallClassifier).forward m1 m2 m3 x ≠
        (evalMode smallClassifier).forward m1' m2' m3' x := by
  constructor
  · intro c b m1 m2 m3 x
    rfl
  · refine ⟨[1], [true], [true], [true], [false], [true], [true], ?_⟩
    intro h
    simp only [DropoutClassifier.forward, evalMode, smallClassifier, unit1,
      linearApply, dot, relu, dropoutF, logSoftmax, List.zip_cons_cons,
      List.zip_nil_right, List.zip_nil_left, List.map_cons, List.map_nil,
      List.sum_cons, List.sum_nil, if_true, if_false, max_def] at h
    norm_num at h
    obtain ⟨h1, h2⟩ := h
    rw [h2] at h1
    have h3 : (8 : ℝ) = 0 := by linear_combination h1
    norm_num at h3

end Part5
